import Mathlib

/-!
Shallow embedding of the Raft server core (src/server.rs) and proofs about it.

Modelling conventions:
* Machine integers (u32, usize) are modelled as `Nat`.  Arithmetic uses
  checked (debug-build) semantics: a subtraction that would underflow and an
  out-of-bounds slice or index are panics; a panicking execution is `none`
  in the `Option Server` result of every handler and role step.
* Wire messages are byte lists (`List Nat`, one element per byte); u32 reads
  at fixed offsets follow the Rust slice reads `data[i..i+4]` and return
  `none` exactly when the slice would be out of range.
* Network sends and broadcasts do not modify server state and are omitted;
  the address map is modelled by the list `known_ids` of ids that have an
  address (addresses themselves are assumed well formed).  The receive call
  is modelled by passing the received message as an argument to the step.
* `Instant`/`Duration` timing is modelled by a boolean `elapsed` argument
  stating whether the election timeout has expired at the corresponding
  check; `last_heartbeat` is not otherwise observable in any claim.
* The candidate wait loop processes a finite list of received messages
  (an arbitrary finite prefix of the real, possibly unbounded, loop).
-/

/-- Recompose a big-endian u32 from four bytes, as u32::from_be_bytes. -/
def fromBe (a b c d : Nat) : Nat := ((a * 256 + b) * 256 + c) * 256 + d

/-- Big-endian bytes of a u32 value, as u32::to_be_bytes (value taken mod 2^32). -/
def u32ToBeBytes (n : Nat) : List Nat :=
  [n / 2 ^ 24 % 256, n / 2 ^ 16 % 256, n / 2 ^ 8 % 256, n % 256]

/-- Read the u32 at byte offset i, as the Rust slice read
u32::from_be_bytes(data[i..i+4]); none models the out-of-range panic. -/
def readU32 (data : List Nat) (i : Nat) : Option Nat :=
  match data.get? i, data.get? (i + 1), data.get? (i + 2), data.get? (i + 3) with
  | some a, some b, some c, some d => some (fromBe a b c d)
  | _, _, _, _ => none

/-- RaftState from src/server.rs. -/
inductive RaftState
  | Follower
  | Candidate
  | Leader
deriving DecidableEq, Repr

/-- LogCommand from src/server.rs. -/
inductive LogCommand
  | Noop
  | Set
  | Delete
deriving DecidableEq, Repr

/-- LogEntry from src/server.rs. -/
structure LogEntry where
  leader_id : Nat
  server_id : Nat
  term : Nat
  command : LogCommand
  data : Nat
deriving DecidableEq, Repr

/-- The server model: the fields of ServerState flattened together with the
fields of Server and of ServerConfig that the handlers read.  `known_ids`
models the key set of config.id_to_address_mapping.  The timing fields
(election_timeout, last_heartbeat) and the network and storage collaborators
are not state observable by any claim and are abstracted as described in the
file header. -/
structure Server where
  id : Nat
  peers : List Nat
  current_term : Nat
  state : RaftState
  voted_for : Option Nat
  log : List LogEntry
  commit_index : Nat
  previous_log_index : Nat
  next_index : List Nat
  match_index : List Nat
  votes_received : List (Nat × Bool)
  write_buffer : List LogEntry
  default_leader : Option Nat
  known_ids : List Nat
deriving DecidableEq, Repr

/-- HashMap::insert on the votes_received map, modelled as a key-unique
association list (only the key cardinality and membership are observable). -/
def hm_insert (m : List (Nat × Bool)) (k : Nat) (v : Bool) : List (Nat × Bool) :=
  if m.any (fun p => p.1 == k) then
    m.map (fun p => if p.1 == k then (k, v) else p)
  else (k, v) :: m

/-- Insert into an ascending list, helper for `sortNat`. -/
def insertSorted (x : Nat) : List Nat → List Nat
  | [] => [x]
  | y :: ys => if x ≤ y then x :: y :: ys else y :: insertSorted x ys

/-- Ascending sort of a list of naturals, modelling Vec::sort. -/
def sortNat : List Nat → List Nat
  | [] => []
  | x :: xs => insertSorted x (sortNat xs)

/-- Largest u32 value. -/
def U32_MAX : Nat := 2 ^ 32 - 1

/-- Server::is_quorum:
votes > (self.peers.len() / 2).try_into().unwrap_or_default().
The usize→u32 conversion falls back to 0 (u32 default) when peers.len()/2
exceeds u32::MAX. -/
def is_quorum (s : Server) (votes : Nat) : Bool :=
  votes > (if s.peers.length / 2 ≤ U32_MAX then s.peers.length / 2 else 0)

/-- The count passed to is_quorum at the call sites:
self.state.votes_received.len() as u32 (usize truncated to u32). -/
def votesCount (s : Server) : Nat := s.votes_received.length % 2 ^ 32

/-- Decode a command_type byte-field into a LogCommand; none models the
panic on an invalid command type in Server::deserialize_log_entries. -/
def commandOfNat (n : Nat) : Option LogCommand :=
  match n with
  | 0 => some LogCommand.Noop
  | 1 => some LogCommand.Set
  | 2 => some LogCommand.Delete
  | _ => none

/-- Server::deserialize_log_entries: repeatedly read a (command_type, data)
pair of u32 values and build entries stamped with the supplied sender id and
term; none models the panics on an invalid command type or on a trailing
slice shorter than 4 bytes. -/
def deserialize_log_entries (selfId sender_id term : Nat) : List Nat → Option (List LogEntry)
  | [] => some []
  | a :: b :: c :: d :: e :: f :: g :: h :: rest =>
    match commandOfNat (fromBe a b c d) with
    | none => none
    | some cmd =>
      match deserialize_log_entries selfId sender_id term rest with
      | none => none
      | some es =>
        some ({ leader_id := sender_id, server_id := selfId, term := term,
                command := cmd, data := fromBe e f g h } :: es)
  | _ => none

/-- Per-entry payload of an AppendEntries batch: the (term, data) pairs
emitted by the loop in Server::prepare_append_batch. -/
def entriesBytes (buf : List LogEntry) : List Nat :=
  (buf.map (fun e => u32ToBeBytes e.term ++ u32ToBeBytes e.data)).flatten

/-- Server::prepare_append_batch: header (id, term, 2, prev_log_index,
commit_index) followed by one (term, data) pair per buffered entry. -/
def prepare_append_batch (id term prev_log_index commit_index : Nat)
    (write_buffer : List LogEntry) : List Nat :=
  u32ToBeBytes id ++ u32ToBeBytes term ++ u32ToBeBytes 2 ++
    u32ToBeBytes prev_log_index ++ u32ToBeBytes commit_index ++ entriesBytes write_buffer

/-- Server::prepare_request_vote. -/
def prepare_request_vote (id term : Nat) : List Nat :=
  u32ToBeBytes id ++ u32ToBeBytes term ++ u32ToBeBytes 0

/-- Server::prepare_heartbeat. -/
def prepare_heartbeat (s : Server) : List Nat :=
  u32ToBeBytes s.id ++ u32ToBeBytes s.current_term ++ u32ToBeBytes 4

/-- Server::handle_client_request: leader only; reads the write value at
bytes 12..16, buffers a Set entry stamped with the pre-increment term, and
bumps previous_log_index, commit_index and current_term. -/
def handle_client_request (s : Server) (data : List Nat) : Option Server :=
  if s.state ≠ RaftState.Leader then some s
  else
    match readU32 data 12 with
    | none => none
    | some d =>
      some { s with
              previous_log_index := s.previous_log_index + 1,
              commit_index := s.commit_index + 1,
              current_term := s.current_term + 1,
              write_buffer := s.write_buffer ++
                [{ leader_id := s.id, server_id := s.id, term := s.current_term,
                   command := LogCommand.Set, data := d }] }

/-- Server::handle_request_vote: follower only; after the stale-term check it
unconditionally records the candidate as voted_for.  The address lookup and
the vote-response send that follow do not modify server state (on a missing
address the handler returns early with the vote already recorded), so both
branches of the lookup leave the same state. -/
def handle_request_vote (s : Server) (data : List Nat) : Option Server :=
  if s.state ≠ RaftState.Follower then some s
  else
    match readU32 data 0, readU32 data 4 with
    | some candidate_id, some candidate_term =>
      if candidate_term < s.current_term then some s
      else if candidate_id ∈ s.known_ids then some { s with voted_for := some candidate_id }
      else some { s with voted_for := some candidate_id }
    | _, _ => none

/-- Server::handle_request_vote_response: candidate only; records
(voter_id, vote_granted) in votes_received. -/
def handle_request_vote_response (s : Server) (data : List Nat) : Option Server :=
  if s.state ≠ RaftState.Candidate then some s
  else
    match readU32 data 0, readU32 data 8 with
    | some voter_id, some granted =>
      some { s with votes_received := hm_insert s.votes_received voter_id (granted == 1) }
    | _, _ => none

/-- Server::handle_append_entries: follower only.  Mirrors the Rust control
flow: stale-term and message-type checks, then the previous_log_index and
commit_index guards (previous_log_index is already advanced when the
commit_index guard fails), then append_log of the payload after byte 20 and
the per-append term increment; the response send needs the leader address
(none models its unwrap panic on an unknown id). -/
def handle_append_entries (s : Server) (data : List Nat) : Option Server :=
  if s.state ≠ RaftState.Follower then some s
  else
    match readU32 data 0, readU32 data 4 with
    | some id, some leader_term =>
      if leader_term < s.current_term then some s
      else
        match readU32 data 8 with
        | none => none
        | some message_type =>
          if message_type ≠ 2 then some s
          else
            match readU32 data 12 with
            | none => none
            | some prev_log_index =>
              if prev_log_index > s.previous_log_index then
                match readU32 data 16 with
                | none => none
                | some commit_index =>
                  if commit_index > s.commit_index then
                    match deserialize_log_entries s.id id leader_term (data.drop 20) with
                    | none => none
                    | some entries =>
                      if id ∈ s.known_ids then
                        some { s with
                                previous_log_index := prev_log_index,
                                commit_index := commit_index,
                                log := s.log ++ entries,
                                current_term := s.current_term + 1 }
                      else none
                  else some { s with previous_log_index := prev_log_index }
              else some s
    | _, _ => none

/-- Server::handle_append_entries_response: leader only.  Reads sender_id,
term and success at bytes 0..4, 4..8, 12..16; drops responses from a higher
term; on success advances the match and next slots for the sender and
recomputes the commit index from the sorted match indices; on failure
decrements the next slot for the sender.  The index arithmetic
sender_id - 1 underflows for sender_id = 0, array indexing panics out of
bounds, and the decrement underflows when the slot is 0 (all `none`). -/
def handle_append_entries_response (s : Server) (data : List Nat) : Option Server :=
  if s.state ≠ RaftState.Leader then some s
  else
    match readU32 data 0, readU32 data 4, readU32 data 12 with
    | some sender_id, some term, some success =>
      if term > s.current_term then some s
      else if success == 1 then
        if sender_id = 0 then none
        else
          match s.match_index.get? (sender_id - 1), s.next_index.get? (sender_id - 1) with
          | some _, some _ =>
            match (sortNat (s.match_index.set (sender_id - 1) s.previous_log_index)).get?
                (s.peers.length / 2) with
            | none => none
            | some quorum_index =>
              if quorum_index ≥ s.commit_index then
                some { s with
                        match_index := s.match_index.set (sender_id - 1) s.previous_log_index,
                        next_index := s.next_index.set (sender_id - 1) (s.previous_log_index + 1),
                        commit_index := quorum_index }
              else
                some { s with
                        match_index := s.match_index.set (sender_id - 1) s.previous_log_index,
                        next_index := s.next_index.set (sender_id - 1) (s.previous_log_index + 1) }
          | _, _ => none
      else
        if sender_id = 0 then none
        else
          match s.next_index.get? (sender_id - 1) with
          | none => none
          | some v =>
            if v = 0 then none
            else some { s with next_index := s.next_index.set (sender_id - 1) (v - 1) }
    | _, _, _ => none

/-- Server::handle_heartbeat: follower only; its only effect is refreshing
last_heartbeat, which is not part of the modelled state. -/
def handle_heartbeat (s : Server) : Option Server :=
  if s.state ≠ RaftState.Follower then some s else some s

/-- Server::handle_heartbeat_response: noop. -/
def handle_heartbeat_response (s : Server) : Option Server := some s

/-- Server::handle_rpc: reads term (bytes 4..8) and message_type
(bytes 8..12), drops strictly stale terms before dispatch, drops unknown
message types, and otherwise dispatches to exactly one handler. -/
def handle_rpc (s : Server) (data : List Nat) : Option Server :=
  match readU32 data 4, readU32 data 8 with
  | some term, some message_type =>
    if term < s.current_term then some s
    else if message_type = 0 then handle_request_vote s data
    else if message_type = 1 then handle_request_vote_response s data
    else if message_type = 2 then handle_append_entries s data
    else if message_type = 3 then handle_append_entries_response s data
    else if message_type = 4 then handle_heartbeat s
    else if message_type = 5 then handle_heartbeat_response s
    else if message_type = 6 then handle_client_request s data
    else some s
  | _, _ => none

/-- Server::append_log: deserialize the payload and push the entries onto
the in-memory log (the storage write does not alter server state and its
failure is logged and ignored). -/
def append_log (s : Server) (id term : Nat) (data : List Nat) : Option Server :=
  match deserialize_log_entries s.id id term data with
  | none => none
  | some entries => some { s with log := s.log ++ entries }

/-- The local-append loop of the leader step: each buffered entry is
re-encoded as the pair (2, entry.data) and appended via append_log. -/
def appendBuffered (s : Server) : List LogEntry → Option Server
  | [] => some s
  | e :: rest =>
    match append_log s s.id s.current_term (u32ToBeBytes 2 ++ u32ToBeBytes e.data) with
    | none => none
    | some s1 => appendBuffered s1 rest

/-- The candidate wait loop: receive one message, dispatch it, stop when the
vote count reaches quorum, and otherwise continue with the next message.
The finite message list is an arbitrary finite prefix of the loop. -/
def processMsgs (s : Server) : List (List Nat) → Option Server
  | [] => some s
  | m :: ms =>
    match handle_rpc s m with
    | none => none
    | some s1 =>
      if is_quorum s1 (votesCount s1) then some s1
      else processMsgs s1 ms

/-- The tail of Server::follower after the bootstrap block: election-timeout
check, then receive and dispatch one RPC. -/
def followerTail (s : Server) (elapsed : Bool) (msg : List Nat) : Option Server :=
  if elapsed then some { s with state := RaftState.Candidate }
  else handle_rpc s msg

/-- The body of Server::follower after the index-array reset: the
first-tick bootstrap (term increment and optional default-leader
self-promotion) when current_term = 0, then the timeout check and a single
receive/dispatch. -/
def followerBody (s : Server) (elapsed : Bool) (msg : List Nat) : Option Server :=
  if s.current_term = 0 then
    match s.default_leader with
    | some leader_id =>
      if s.id = leader_id then
        some { s with current_term := s.current_term + 1, state := RaftState.Leader }
      else followerTail { s with current_term := s.current_term + 1 } elapsed msg
    | none => followerTail { s with current_term := s.current_term + 1 } elapsed msg
  else followerTail s elapsed msg

/-- Server::follower: resets both per-peer index arrays to length
peers.len()+1, then runs the bootstrap block, the timeout check and a
single receive/dispatch. -/
def followerStep (s : Server) (elapsed : Bool) (msg : List Nat) : Option Server :=
  if s.state ≠ RaftState.Follower then some s
  else
    followerBody
      { s with
          match_index := List.replicate (s.peers.length + 1) 0,
          next_index := List.replicate (s.peers.length + 1) 0 }
      elapsed msg

/-- The block at the top of Server::candidate: term increment, vote for
self, record the self vote. -/
def candidateVote (s : Server) : Server :=
  { s with
      current_term := s.current_term + 1,
      voted_for := some s.id,
      votes_received := hm_insert s.votes_received s.id true }

/-- The candidate wait loop including its entry condition: the loop
condition compares an instant captured before the loop against
last_heartbeat, so when the timeout had already elapsed at entry the body
never runs. -/
def candidateWait (s : Server) (elapsed : Bool) (msgs : List (List Nat)) : Option Server :=
  if elapsed then some s else processMsgs s msgs

/-- Server::candidate: term increment and self vote, broadcast (no state
effect), the wait loop over received messages, then the quorum decision. -/
def candidateStep (s : Server) (elapsed : Bool) (msgs : List (List Nat)) : Option Server :=
  if s.state ≠ RaftState.Candidate then some s
  else
    match candidateWait (candidateVote s) elapsed msgs with
    | none => none
    | some s1 =>
      if is_quorum s1 (votesCount s1) then some { s1 with state := RaftState.Leader }
      else some { s1 with votes_received := [], state := RaftState.Follower }

/-- Server::leader: timeout check (step down to Candidate), heartbeat
broadcast (no state effect), one receive/dispatch, and, when the write
buffer is nonempty, the replication round: local append of each buffered
entry, batch broadcast (no state effect), the inner consensus wait (whose
timeout re-check reuses the instant captured at step entry and is therefore
false here, so it receives exactly one message and breaks), then the buffer
clear and the fixed client acknowledgment send (no state effect). -/
def leaderStep (s : Server) (elapsed : Bool) (msg1 msg2 : List Nat) : Option Server :=
  if s.state ≠ RaftState.Leader then some s
  else if elapsed then some { s with state := RaftState.Candidate }
  else
    match handle_rpc s msg1 with
    | none => none
    | some s1 =>
      if s1.write_buffer.isEmpty then some s1
      else
        match appendBuffered s1 s1.write_buffer with
        | none => none
        | some s2 =>
          match handle_rpc s2 msg2 with
          | none => none
          | some s3 => some { s3 with write_buffer := [] }

/-- Server::new: peers are the cluster nodes other than self; both per-peer
index arrays start with length peers.len(); all counters start at 0. -/
def Server.new (id : Nat) (cluster_nodes : List Nat) (default_leader : Option Nat)
    (known_ids : List Nat) : Server :=
  { id := id,
    peers := cluster_nodes.filter (fun x => x != id),
    current_term := 0,
    state := RaftState.Follower,
    voted_for := none,
    log := [],
    commit_index := 0,
    previous_log_index := 0,
    next_index := List.replicate (cluster_nodes.filter (fun x => x != id)).length 0,
    match_index := List.replicate (cluster_nodes.filter (fun x => x != id)).length 0,
    votes_received := [],
    write_buffer := [],
    default_leader := default_leader,
    known_ids := known_ids }

/-- A small concrete follower used by concrete evaluations: node 3 in a
cluster with nodes 1, 2, 3. -/
def baseServer : Server :=
  { id := 3, peers := [1, 2], current_term := 1, state := RaftState.Follower,
    voted_for := none, log := [], commit_index := 0, previous_log_index := 0,
    next_index := [0, 0], match_index := [0, 0], votes_received := [],
    write_buffer := [], default_leader := none, known_ids := [1, 2, 3] }

/-- A small concrete leader used by concrete evaluations: node 1 in a
cluster with nodes 1, 2, its single peer tracked at next_index 5. -/
def leaderServer : Server :=
  { id := 1, peers := [2], current_term := 10, state := RaftState.Leader,
    voted_for := some 1, log := [], commit_index := 3, previous_log_index := 4,
    next_index := [5], match_index := [4], votes_received := [],
    write_buffer := [], default_leader := some 1, known_ids := [1, 2] }

/-- A server whose peer vector is long enough that peers.len()/2 does not
fit in u32 and the try_into fallback in is_quorum yields 0. -/
def hugeServer : Server :=
  { baseServer with peers := List.replicate (2 ^ 33) 0 }

theorem readU32_none (data : List Nat) (i : Nat) (h : data.length ≤ i + 3) :
    readU32 data i = none := by
  have h3 : data.get? (i + 3) = none := List.get?_eq_none.mpr (by omega)
  unfold readU32
  rw [h3]
  rcases data.get? i with _ | a <;> rcases data.get? (i + 1) with _ | b <;>
    rcases data.get? (i + 2) with _ | c <;> rfl

theorem readU32_isSome (data : List Nat) (i : Nat) (h : i + 4 ≤ data.length) :
    ∃ v, readU32 data i = some v := by
  have h0 : data.get? i = some (data.get ⟨i, by omega⟩) := List.get?_eq_get (by omega)
  have h1 : data.get? (i + 1) = some (data.get ⟨i + 1, by omega⟩) := List.get?_eq_get (by omega)
  have h2 : data.get? (i + 2) = some (data.get ⟨i + 2, by omega⟩) := List.get?_eq_get (by omega)
  have h3 : data.get? (i + 3) = some (data.get ⟨i + 3, by omega⟩) := List.get?_eq_get (by omega)
  exact ⟨_, by unfold readU32; rw [h0, h1, h2, h3]⟩

theorem fromBe_u32ToBeBytes (n : Nat) (hn : n < 2 ^ 32) :
    fromBe (n / 2 ^ 24 % 256) (n / 2 ^ 16 % 256) (n / 2 ^ 8 % 256) (n % 256) = n := by
  unfold fromBe
  omega

theorem hrv_term_mono (s s' : Server) (d : List Nat)
    (h : handle_request_vote s d = some s') : s.current_term ≤ s'.current_term := by
  unfold handle_request_vote at h
  repeat (any_goals split at h)
  all_goals first
    | (injection h; done)
    | (injection h with h; subst h; exact Nat.le_refl _)

theorem hrvr_term_mono (s s' : Server) (d : List Nat)
    (h : handle_request_vote_response s d = some s') : s.current_term ≤ s'.current_term := by
  unfold handle_request_vote_response at h
  repeat (any_goals split at h)
  all_goals first
    | (injection h; done)
    | (injection h with h; subst h; exact Nat.le_refl _)

theorem hae_term_mono (s s' : Server) (d : List Nat)
    (h : handle_append_entries s d = some s') : s.current_term ≤ s'.current_term := by
  unfold handle_append_entries at h
  repeat (any_goals split at h)
  all_goals first
    | (injection h; done)
    | (injection h with h; subst h; first | exact Nat.le_refl _ | exact Nat.le_succ _)

theorem haer_term_mono (s s' : Server) (d : List Nat)
    (h : handle_append_entries_response s d = some s') : s.current_term ≤ s'.current_term := by
  unfold handle_append_entries_response at h
  repeat (any_goals split at h)
  all_goals first
    | (injection h; done)
    | (injection h with h; subst h; exact Nat.le_refl _)

theorem hcr_term_mono (s s' : Server) (d : List Nat)
    (h : handle_client_request s d = some s') : s.current_term ≤ s'.current_term := by
  unfold handle_client_request at h
  repeat (any_goals split at h)
  all_goals first
    | (injection h; done)
    | (injection h with h; subst h; first | exact Nat.le_refl _ | exact Nat.le_succ _)

theorem hhb_term_mono (s s' : Server)
    (h : handle_heartbeat s = some s') : s.current_term ≤ s'.current_term := by
  unfold handle_heartbeat at h
  repeat (any_goals split at h)
  all_goals first
    | (injection h; done)
    | (injection h with h; subst h; exact Nat.le_refl _)

theorem hhbr_term_mono (s s' : Server)
    (h : handle_heartbeat_response s = some s') : s.current_term ≤ s'.current_term := by
  unfold handle_heartbeat_response at h
  injection h with h
  subst h
  exact Nat.le_refl _

theorem hrpc_term_mono (s s' : Server) (d : List Nat)
    (h : handle_rpc s d = some s') : s.current_term ≤ s'.current_term := by
  unfold handle_rpc at h
  repeat (any_goals split at h)
  all_goals first
    | (injection h; done)
    | (injection h with h; subst h; exact Nat.le_refl _)
    | exact hrv_term_mono _ _ _ h
    | exact hrvr_term_mono _ _ _ h
    | exact hae_term_mono _ _ _ h
    | exact haer_term_mono _ _ _ h
    | exact hhb_term_mono _ _ h
    | exact hhbr_term_mono _ _ h
    | exact hcr_term_mono _ _ _ h

theorem append_log_term_eq (s s' : Server) (id term : Nat) (d : List Nat)
    (h : append_log s id term d = some s') : s'.current_term = s.current_term := by
  unfold append_log at h
  repeat (any_goals split at h)
  all_goals first
    | (injection h; done)
    | (injection h with h; subst h; rfl)

theorem appendBuffered_term_eq (buf : List LogEntry) : ∀ s s' : Server,
    appendBuffered s buf = some s' → s'.current_term = s.current_term := by
  induction buf with
  | nil =>
    intro s s' h
    injection h with h
    subst h
    rfl
  | cons e rest ih =>
    intro s s' h
    unfold appendBuffered at h
    cases hm : append_log s s.id s.current_term (u32ToBeBytes 2 ++ u32ToBeBytes e.data) with
    | none => rw [hm] at h; injection h
    | some s1 =>
      rw [hm] at h
      rw [ih s1 s' h, append_log_term_eq _ _ _ _ _ hm]

theorem processMsgs_term_mono (ms : List (List Nat)) : ∀ s s' : Server,
    processMsgs s ms = some s' → s.current_term ≤ s'.current_term := by
  induction ms with
  | nil =>
    intro s s' h
    injection h with h
    subst h
    exact Nat.le_refl _
  | cons m ms ih =>
    intro s s' h
    unfold processMsgs at h
    cases hm : handle_rpc s m with
    | none => simp only [hm] at h; exact Option.noConfusion h
    | some s1 =>
      simp only [hm] at h
      split at h
      · injection h with h
        subst h
        exact hrpc_term_mono _ _ _ hm
      · exact Nat.le_trans (hrpc_term_mono _ _ _ hm) (ih _ _ h)

theorem followerTail_term_mono (s s' : Server) (e : Bool) (m : List Nat)
    (h : followerTail s e m = some s') : s.current_term ≤ s'.current_term := by
  unfold followerTail at h
  split at h
  · injection h with h
    subst h
    exact Nat.le_refl _
  · exact hrpc_term_mono _ _ _ h

theorem followerBody_term_mono (s s' : Server) (e : Bool) (m : List Nat)
    (h : followerBody s e m = some s') : s.current_term ≤ s'.current_term := by
  unfold followerBody at h
  repeat (any_goals split at h)
  all_goals first
    | (injection h with h; subst h; exact Nat.le_succ _)
    | exact followerTail_term_mono _ _ _ _ h
    | exact Nat.le_trans (Nat.le_succ _) (followerTail_term_mono _ _ _ _ h)

theorem followerStep_term_mono (s s' : Server) (e : Bool) (m : List Nat)
    (h : followerStep s e m = some s') : s.current_term ≤ s'.current_term := by
  unfold followerStep at h
  split at h
  · injection h with h
    subst h
    exact Nat.le_refl _
  · have t := followerBody_term_mono _ _ _ _ h
    exact t

theorem candidateWait_term_mono (s s' : Server) (e : Bool) (ms : List (List Nat))
    (h : candidateWait s e ms = some s') : s.current_term ≤ s'.current_term := by
  unfold candidateWait at h
  split at h
  · injection h with h
    subst h
    exact Nat.le_refl _
  · exact processMsgs_term_mono _ _ _ h

theorem candidateStep_term_mono (s s' : Server) (e : Bool) (ms : List (List Nat))
    (h : candidateStep s e ms = some s') : s.current_term ≤ s'.current_term := by
  unfold candidateStep at h
  repeat (any_goals split at h)
  all_goals first
    | (injection h; done)
    | (injection h with h; subst h; exact Nat.le_refl _)
    | (injection h with h; subst h;
       exact Nat.le_trans (Nat.le_succ _) (candidateWait_term_mono _ _ _ _ (by assumption)))

theorem leaderStep_term_mono (s s' : Server) (e : Bool) (m1 m2 : List Nat)
    (h : leaderStep s e m1 m2 = some s') : s.current_term ≤ s'.current_term := by
  unfold leaderStep at h
  split at h
  · injection h with h
    subst h
    exact Nat.le_refl _
  · split at h
    · injection h with h
      subst h
      exact Nat.le_refl _
    · cases hm1 : handle_rpc s m1 with
      | none => simp only [hm1] at h; exact Option.noConfusion h
      | some s1 =>
        simp only [hm1] at h
        have t1 := hrpc_term_mono _ _ _ hm1
        split at h
        · injection h with h
          subst h
          exact t1
        · cases hb : appendBuffered s1 s1.write_buffer with
          | none => simp only [hb] at h; exact Option.noConfusion h
          | some s2 =>
            simp only [hb] at h
            have t2 := appendBuffered_term_eq _ _ _ hb
            cases hm2 : handle_rpc s2 m2 with
            | none => simp only [hm2] at h; exact Option.noConfusion h
            | some s3 =>
              simp only [hm2] at h
              have t3 := hrpc_term_mono _ _ _ hm2
              injection h with h
              subst h
              calc s.current_term ≤ s1.current_term := t1
                _ = s2.current_term := t2.symm
                _ ≤ s3.current_term := t3

theorem hcr_commit_mono (s s' : Server) (d : List Nat)
    (h : handle_client_request s d = some s') : s.commit_index ≤ s'.commit_index := by
  unfold handle_client_request at h
  repeat (any_goals split at h)
  all_goals first
    | (injection h; done)
    | (injection h with h; subst h; first | exact Nat.le_refl _ | exact Nat.le_succ _)

theorem hae_commit_mono (s s' : Server) (d : List Nat)
    (h : handle_append_entries s d = some s') : s.commit_index ≤ s'.commit_index := by
  unfold handle_append_entries at h
  repeat (any_goals split at h)
  all_goals first
    | (injection h; done)
    | (injection h with h; subst h;
       first
         | exact Nat.le_refl _
         | exact Nat.le_succ _
         | exact Nat.le_of_lt (by assumption))

theorem haer_commit_mono (s s' : Server) (d : List Nat)
    (h : handle_append_entries_response s d = some s') : s.commit_index ≤ s'.commit_index := by
  unfold handle_append_entries_response at h
  repeat (any_goals split at h)
  all_goals first
    | (injection h; done)
    | (injection h with h; subst h;
       first
         | exact Nat.le_refl _
         | assumption)

theorem hrv_frame (s s' : Server) (d : List Nat)
    (h : handle_request_vote s d = some s') :
    s'.peers = s.peers ∧ s'.next_index.length = s.next_index.length ∧
      s'.match_index.length = s.match_index.length := by
  unfold handle_request_vote at h
  repeat (any_goals split at h)
  all_goals first
    | (injection h; done)
    | (injection h with h; subst h; refine ⟨rfl, ?_, ?_⟩ <;> simp [List.length_set])

theorem hrvr_frame (s s' : Server) (d : List Nat)
    (h : handle_request_vote_response s d = some s') :
    s'.peers = s.peers ∧ s'.next_index.length = s.next_index.length ∧
      s'.match_index.length = s.match_index.length := by
  unfold handle_request_vote_response at h
  repeat (any_goals split at h)
  all_goals first
    | (injection h; done)
    | (injection h with h; subst h; refine ⟨rfl, ?_, ?_⟩ <;> simp [List.length_set])

theorem hae_frame (s s' : Server) (d : List Nat)
    (h : handle_append_entries s d = some s') :
    s'.peers = s.peers ∧ s'.next_index.length = s.next_index.length ∧
      s'.match_index.length = s.match_index.length := by
  unfold handle_append_entries at h
  repeat (any_goals split at h)
  all_goals first
    | (injection h; done)
    | (injection h with h; subst h; refine ⟨rfl, ?_, ?_⟩ <;> simp [List.length_set])

theorem haer_frame (s s' : Server) (d : List Nat)
    (h : handle_append_entries_response s d = some s') :
    s'.peers = s.peers ∧ s'.next_index.length = s.next_index.length ∧
      s'.match_index.length = s.match_index.length := by
  unfold handle_append_entries_response at h
  repeat (any_goals split at h)
  all_goals first
    | (injection h; done)
    | (injection h with h; subst h; refine ⟨rfl, ?_, ?_⟩ <;> simp [List.length_set])

theorem hcr_frame (s s' : Server) (d : List Nat)
    (h : handle_client_request s d = some s') :
    s'.peers = s.peers ∧ s'.next_index.length = s.next_index.length ∧
      s'.match_index.length = s.match_index.length := by
  unfold handle_client_request at h
  repeat (any_goals split at h)
  all_goals first
    | (injection h; done)
    | (injection h with h; subst h; refine ⟨rfl, ?_, ?_⟩ <;> simp [List.length_set])

theorem hhb_frame (s s' : Server)
    (h : handle_heartbeat s = some s') :
    s'.peers = s.peers ∧ s'.next_index.length = s.next_index.length ∧
      s'.match_index.length = s.match_index.length := by
  unfold handle_heartbeat at h
  repeat (any_goals split at h)
  all_goals first
    | (injection h; done)
    | (injection h with h; subst h; exact ⟨rfl, rfl, rfl⟩)

theorem hhbr_frame (s s' : Server)
    (h : handle_heartbeat_response s = some s') :
    s'.peers = s.peers ∧ s'.next_index.length = s.next_index.length ∧
      s'.match_index.length = s.match_index.length := by
  unfold handle_heartbeat_response at h
  injection h with h
  subst h
  exact ⟨rfl, rfl, rfl⟩

theorem hrpc_frame (s s' : Server) (d : List Nat)
    (h : handle_rpc s d = some s') :
    s'.peers = s.peers ∧ s'.next_index.length = s.next_index.length ∧
      s'.match_index.length = s.match_index.length := by
  unfold handle_rpc at h
  repeat (any_goals split at h)
  all_goals first
    | (injection h; done)
    | (injection h with h; subst h; exact ⟨rfl, rfl, rfl⟩)
    | exact hrv_frame _ _ _ h
    | exact hrvr_frame _ _ _ h
    | exact hae_frame _ _ _ h
    | exact haer_frame _ _ _ h
    | exact hhb_frame _ _ h
    | exact hhbr_frame _ _ h
    | exact hcr_frame _ _ _ h

theorem append_log_frame (s s' : Server) (id term : Nat) (d : List Nat)
    (h : append_log s id term d = some s') :
    s'.peers = s.peers ∧ s'.next_index.length = s.next_index.length ∧
      s'.match_index.length = s.match_index.length := by
  unfold append_log at h
  repeat (any_goals split at h)
  all_goals first
    | (injection h; done)
    | (injection h with h; subst h; exact ⟨rfl, rfl, rfl⟩)

theorem appendBuffered_frame (buf : List LogEntry) : ∀ s s' : Server,
    appendBuffered s buf = some s' →
    s'.peers = s.peers ∧ s'.next_index.length = s.next_index.length ∧
      s'.match_index.length = s.match_index.length := by
  induction buf with
  | nil =>
    intro s s' h
    injection h with h
    subst h
    exact ⟨rfl, rfl, rfl⟩
  | cons e rest ih =>
    intro s s' h
    unfold appendBuffered at h
    cases hm : append_log s s.id s.current_term (u32ToBeBytes 2 ++ u32ToBeBytes e.data) with
    | none => simp only [hm] at h; exact Option.noConfusion h
    | some s1 =>
      simp only [hm] at h
      obtain ⟨p1, n1, m1⟩ := append_log_frame _ _ _ _ _ hm
      obtain ⟨p2, n2, m2⟩ := ih _ _ h
      exact ⟨p2.trans p1, n2.trans n1, m2.trans m1⟩

theorem processMsgs_frame (ms : List (List Nat)) : ∀ s s' : Server,
    processMsgs s ms = some s' →
    s'.peers = s.peers ∧ s'.next_index.length = s.next_index.length ∧
      s'.match_index.length = s.match_index.length := by
  induction ms with
  | nil =>
    intro s s' h
    injection h with h
    subst h
    exact ⟨rfl, rfl, rfl⟩
  | cons m ms ih =>
    intro s s' h
    unfold processMsgs at h
    cases hm : handle_rpc s m with
    | none => simp only [hm] at h; exact Option.noConfusion h
    | some s1 =>
      simp only [hm] at h
      obtain ⟨p1, n1, m1⟩ := hrpc_frame _ _ _ hm
      split at h
      · injection h with h
        subst h
        exact ⟨p1, n1, m1⟩
      · obtain ⟨p2, n2, m2⟩ := ih _ _ h
        exact ⟨p2.trans p1, n2.trans n1, m2.trans m1⟩

theorem followerTail_frame (s s' : Server) (e : Bool) (m : List Nat)
    (h : followerTail s e m = some s') :
    s'.peers = s.peers ∧ s'.next_index.length = s.next_index.length ∧
      s'.match_index.length = s.match_index.length := by
  unfold followerTail at h
  split at h
  · injection h with h
    subst h
    exact ⟨rfl, rfl, rfl⟩
  · exact hrpc_frame _ _ _ h

theorem followerBody_frame (s s' : Server) (e : Bool) (m : List Nat)
    (h : followerBody s e m = some s') :
    s'.peers = s.peers ∧ s'.next_index.length = s.next_index.length ∧
      s'.match_index.length = s.match_index.length := by
  unfold followerBody at h
  repeat (any_goals split at h)
  all_goals first
    | (injection h; done)
    | (injection h with h; subst h; exact ⟨rfl, rfl, rfl⟩)
    | (have t := followerTail_frame _ _ _ _ h; exact t)

theorem candidateWait_frame (s s' : Server) (e : Bool) (ms : List (List Nat))
    (h : candidateWait s e ms = some s') :
    s'.peers = s.peers ∧ s'.next_index.length = s.next_index.length ∧
      s'.match_index.length = s.match_index.length := by
  unfold candidateWait at h
  split at h
  · injection h with h
    subst h
    exact ⟨rfl, rfl, rfl⟩
  · exact processMsgs_frame _ _ _ h

theorem candidateStep_frame (s s' : Server) (e : Bool) (ms : List (List Nat))
    (h : candidateStep s e ms = some s') :
    s'.peers = s.peers ∧ s'.next_index.length = s.next_index.length ∧
      s'.match_index.length = s.match_index.length := by
  unfold candidateStep at h
  split at h
  · injection h with h
    subst h
    exact ⟨rfl, rfl, rfl⟩
  · cases hw : candidateWait (candidateVote s) e ms with
    | none => simp only [hw] at h; exact Option.noConfusion h
    | some s1 =>
      simp only [hw] at h
      have t := candidateWait_frame _ _ _ _ hw
      split at h
      all_goals injection h with h
      all_goals subst h
      all_goals exact t

theorem leaderStep_frame (s s' : Server) (e : Bool) (m1 m2 : List Nat)
    (h : leaderStep s e m1 m2 = some s') :
    s'.peers = s.peers ∧ s'.next_index.length = s.next_index.length ∧
      s'.match_index.length = s.match_index.length := by
  unfold leaderStep at h
  split at h
  · injection h with h
    subst h
    exact ⟨rfl, rfl, rfl⟩
  · split at h
    · injection h with h
      subst h
      exact ⟨rfl, rfl, rfl⟩
    · cases hm1 : handle_rpc s m1 with
      | none => simp only [hm1] at h; exact Option.noConfusion h
      | some s1 =>
        simp only [hm1] at h
        obtain ⟨p1, n1, q1⟩ := hrpc_frame _ _ _ hm1
        split at h
        · injection h with h
          subst h
          exact ⟨p1, n1, q1⟩
        · cases hb : appendBuffered s1 s1.write_buffer with
          | none => simp only [hb] at h; exact Option.noConfusion h
          | some s2 =>
            simp only [hb] at h
            obtain ⟨p2, n2, q2⟩ := appendBuffered_frame _ _ _ hb
            cases hm2 : handle_rpc s2 m2 with
            | none => simp only [hm2] at h; exact Option.noConfusion h
            | some s3 =>
              simp only [hm2] at h
              obtain ⟨p3, n3, q3⟩ := hrpc_frame _ _ _ hm2
              injection h with h
              subst h
              exact ⟨p3.trans (p2.trans p1), n3.trans (n2.trans n1), q3.trans (q2.trans q1)⟩

theorem followerStep_arrays (s s' : Server) (e : Bool) (m : List Nat)
    (hF : s.state = RaftState.Follower) (h : followerStep s e m = some s') :
    s'.peers = s.peers ∧ s'.next_index.length = s.peers.length + 1 ∧
      s'.match_index.length = s.peers.length + 1 := by
  unfold followerStep at h
  split at h
  · exact absurd hF (by assumption)
  · obtain ⟨p1, n1, m1⟩ := followerBody_frame _ _ _ _ h
    refine ⟨p1, ?_, ?_⟩
    · rw [n1]; simp [List.length_replicate]
    · rw [m1]; simp [List.length_replicate]

theorem entriesBytes_cons (e : LogEntry) (rest : List LogEntry) :
    entriesBytes (e :: rest)
      = e.term / 2 ^ 24 % 256 :: e.term / 2 ^ 16 % 256 :: e.term / 2 ^ 8 % 256 :: e.term % 256 ::
        e.data / 2 ^ 24 % 256 :: e.data / 2 ^ 16 % 256 :: e.data / 2 ^ 8 % 256 :: e.data % 256 ::
        entriesBytes rest := by
  simp [entriesBytes, u32ToBeBytes]

theorem prepare_append_batch_drop (id term prev ci : Nat) (buf : List LogEntry) :
    (prepare_append_batch id term prev ci buf).drop 20 = entriesBytes buf := by
  simp [prepare_append_batch, u32ToBeBytes]

theorem deserialize_entriesBytes (selfId sid term : Nat) : ∀ buf : List LogEntry,
    (∀ e ∈ buf, e.term < 3 ∧ e.data < 2 ^ 32) →
    deserialize_log_entries selfId sid term (entriesBytes buf)
      = some (buf.map (fun e =>
          { leader_id := sid, server_id := selfId, term := term,
            command := (commandOfNat e.term).getD LogCommand.Noop, data := e.data })) := by
  intro buf
  induction buf with
  | nil => intro _; rfl
  | cons e rest ih =>
    intro hok
    have ht : e.term < 3 := (hok e (by simp)).1
    have hd : e.data < 2 ^ 32 := (hok e (by simp)).2
    have ihr := ih (fun x hx => hok x (by simp [hx]))
    rw [entriesBytes_cons]
    unfold deserialize_log_entries
    rw [fromBe_u32ToBeBytes e.term (by omega), fromBe_u32ToBeBytes e.data hd]
    rw [ihr]
    have hc : e.term = 0 ∨ e.term = 1 ∨ e.term = 2 := by omega
    rcases hc with hc | hc | hc <;> simp [hc, commandOfNat]

theorem haer_fail_eq (s : Server) (data : List Nat) (sender term succ v : Nat)
    (hL : s.state = RaftState.Leader)
    (h0 : readU32 data 0 = some sender)
    (h4 : readU32 data 4 = some term)
    (h12 : readU32 data 12 = some succ)
    (hterm : term ≤ s.current_term) (hfail : succ ≠ 1) (hs : 1 ≤ sender)
    (hv : s.next_index.get? (sender - 1) = some v) (hvpos : 0 < v) :
    handle_append_entries_response s data
      = some { s with next_index := s.next_index.set (sender - 1) (v - 1) } := by
  have hst : ¬ s.state ≠ RaftState.Leader := by simp [hL]
  have ht : ¬ term > s.current_term := by omega
  have hsucc : ¬ (succ == 1) = true := by simpa using hfail
  have hs0 : ¬ sender = 0 := by omega
  have hv0 : ¬ v = 0 := by omega
  unfold handle_append_entries_response
  rw [h0, h4, h12]
  simp only [if_neg hst, if_neg ht, hsucc, Bool.false_eq_true, if_false, if_neg hs0, hv,
    if_neg hv0]

theorem followerStep_len_eq (s s' : Server) (e : Bool) (m : List Nat)
    (hlen : s.next_index.length = s.match_index.length)
    (h : followerStep s e m = some s') :
    s'.next_index.length = s'.match_index.length := by
  unfold followerStep at h
  split at h
  · injection h with h
    subst h
    exact hlen
  · obtain ⟨p1, n1, m1⟩ := followerBody_frame _ _ _ _ h
    rw [n1, m1]

theorem candidateStep_len_eq (s s' : Server) (e : Bool) (ms : List (List Nat))
    (hlen : s.next_index.length = s.match_index.length)
    (h : candidateStep s e ms = some s') :
    s'.next_index.length = s'.match_index.length := by
  obtain ⟨p1, n1, m1⟩ := candidateStep_frame _ _ _ _ h
  rw [n1, m1]
  exact hlen

theorem leaderStep_len_eq (s s' : Server) (e : Bool) (m1 m2 : List Nat)
    (hlen : s.next_index.length = s.match_index.length)
    (h : leaderStep s e m1 m2 = some s') :
    s'.next_index.length = s'.match_index.length := by
  obtain ⟨p1, n1, q1⟩ := leaderStep_frame _ _ _ _ _ h
  rw [n1, q1]
  exact hlen

/-- Claim C1, counterexample: for a peer vector of length 2^33 the source
computes the threshold through (peers.len() / 2).try_into().unwrap_or_default(),
which falls back to 0 because 2^32 does not fit in u32, so is_quorum accepts
the count 1 even though 1 is not greater than peers.len()/2 = 2^32.  This
refutes the claim read literally for every peer-set size p. -/
theorem raft_C1_cex :
    is_quorum hugeServer 1 = true ∧ ¬ (1 > hugeServer.peers.length / 2) := by
  have hp : hugeServer.peers = List.replicate (2 ^ 33) 0 := rfl
  have hlen : hugeServer.peers.length = 2 ^ 33 := by
    rw [hp, List.length_replicate]
  constructor
  · unfold is_quorum
    rw [hlen]
    norm_num [U32_MAX]
  · rw [hlen]
    norm_num

/-- Claim C1 (amended): for every server whose peer count p satisfies
p/2 ≤ u32::MAX (every realistic size, and all the boundary cases p = 0, 2, 4),
is_quorum(c) holds iff c > p/2 under integer division; for larger p the
usize→u32 conversion in the source collapses the threshold to 0. -/
theorem raft_C1 (s : Server) (c : Nat) (hp : s.peers.length / 2 ≤ U32_MAX) :
    (is_quorum s c = true ↔ c > s.peers.length / 2) ∧
    (∀ t : Server, t.peers.length = 0 → is_quorum t 1 = true) ∧
    (∀ t : Server, t.peers.length = 2 → is_quorum t 2 = true ∧ is_quorum t 1 = false) ∧
    (∀ t : Server, t.peers.length = 4 → is_quorum t 3 = true ∧ is_quorum t 2 = false) := by
  refine ⟨?_, ?_, ?_, ?_⟩
  · simp [is_quorum, hp]
  · intro t htp
    simp [is_quorum, htp, U32_MAX]
  · intro t htp
    constructor <;> simp [is_quorum, htp, U32_MAX]
  · intro t htp
    constructor <;> simp [is_quorum, htp, U32_MAX]

/-- Claim C1 witness: the amended statement applied to the concrete
two-peer server and count 2. -/
theorem raft_C1_witness : is_quorum baseServer 2 = true ↔ 2 > baseServer.peers.length / 2 :=
  (raft_C1 baseServer 2 (by decide)).1

/-- Claim C2: the code grants a second vote in the same term.  A follower
with current_term = 1 that has already voted for candidate 1 receives a
RequestVote from candidate 2 carrying the same term 1, and the handler
overwrites voted_for to candidate 2 (and sends a granted response): there is
no voted_for check in handle_request_vote.  This contradicts the claim that
at most one vote is granted per term. -/
theorem raft_C2 :
    ({ baseServer with voted_for := some 1 } : Server).voted_for = some 1 ∧
    handle_rpc { baseServer with voted_for := some 1 } [0, 0, 0, 2, 0, 0, 0, 1, 0, 0, 0, 0]
      = some { baseServer with voted_for := some 2 } :=
  ⟨rfl, by decide⟩

/-- Claim C3: handle_rpc drops, with no state change and before any type
dispatch, every message whose term field (bytes 4..8) is strictly below the
receiver current_term, and likewise every message whose message_type field
(bytes 8..12) is outside 0..6. -/
theorem raft_C3 (s : Server) (data : List Nat) (hlen : 12 ≤ data.length) :
    (∀ t, readU32 data 4 = some t → t < s.current_term → handle_rpc s data = some s) ∧
    (∀ mt, readU32 data 8 = some mt → 7 ≤ mt → handle_rpc s data = some s) := by
  obtain ⟨t4, h4⟩ := readU32_isSome data 4 (by omega)
  obtain ⟨t8, h8⟩ := readU32_isSome data 8 (by omega)
  constructor
  · intro t ht hlt
    unfold handle_rpc
    rw [ht, h8]
    simp [hlt]
  · intro mt hmt hge
    unfold handle_rpc
    rw [h4, hmt]
    by_cases hc : t4 < s.current_term
    · simp [hc]
    · have e0 : ¬ mt = 0 := by omega
      have e1 : ¬ mt = 1 := by omega
      have e2 : ¬ mt = 2 := by omega
      have e3 : ¬ mt = 3 := by omega
      have e4 : ¬ mt = 4 := by omega
      have e5 : ¬ mt = 5 := by omega
      have e6 : ¬ mt = 6 := by omega
      simp [hc, e0, e1, e2, e3, e4, e5, e6]

/-- Claim C3 witness: a concrete 12-byte message with term 0 below the
receiver term 1 is dropped unchanged. -/
theorem raft_C3_witness :
    handle_rpc baseServer [0, 0, 0, 9, 0, 0, 0, 0, 0, 0, 0, 9] = some baseServer :=
  (raft_C3 baseServer [0, 0, 0, 9, 0, 0, 0, 0, 0, 0, 0, 9] (by decide)).1 0 (by decide) (by decide)

/-- Claim C4, counterexample: prepare_append_batch encodes each entry as its
(term, data) pair, but deserialize_log_entries reads the first field as a
command_type and panics on values outside 0..2.  Encoding a single entry
with term 5 and decoding the payload (the bytes after the 20-byte header)
therefore panics instead of reproducing the entry. -/
theorem raft_C4_cex :
    deserialize_log_entries 2 1 5 ((prepare_append_batch 1 5 0 0
        [{ leader_id := 1, server_id := 1, term := 5, command := LogCommand.Set, data := 7 }]).drop 20)
      = none := by decide

/-- Claim C4 (amended): when every encoded entry has term in 0..2 (so that
the term field survives being reparsed as a command_type) and u32-ranged
data, decoding the payload of the batch yields exactly the same number of
entries in the original order with matching data fields; the decoded command
is the LogCommand whose discriminant is the original term field, and the
decoded term field is the term argument given to the decoder (the batch
header term), not the original per-entry term. -/
theorem raft_C4 (selfId id term prev ci : Nat) (buf : List LogEntry)
    (hok : ∀ e ∈ buf, e.term < 3 ∧ e.data < 2 ^ 32) :
    deserialize_log_entries selfId id term ((prepare_append_batch id term prev ci buf).drop 20)
      = some (buf.map (fun e =>
          { leader_id := id, server_id := selfId, term := term,
            command := (commandOfNat e.term).getD LogCommand.Noop, data := e.data })) := by
  rw [prepare_append_batch_drop]
  exact deserialize_entriesBytes _ _ _ _ hok

/-- Claim C4 witness: the amended round trip applied to one concrete entry
with term 1 and data 42. -/
theorem raft_C4_witness :
    deserialize_log_entries 2 1 9 ((prepare_append_batch 1 9 0 0
        [{ leader_id := 1, server_id := 1, term := 1, command := LogCommand.Set, data := 42 }]).drop 20)
      = some [{ leader_id := 1, server_id := 2, term := 9,
                command := LogCommand.Set, data := 42 }] := by
  have h := raft_C4 2 1 9 0 0
    [{ leader_id := 1, server_id := 1, term := 1, command := LogCommand.Set, data := 42 }]
    (by decide)
  simpa using h

/-- Claim C5: current_term is non-decreasing across every role step
(follower, candidate, leader) and every RPC handler. -/
theorem raft_C5 (s s' : Server) :
    (∀ e m, followerStep s e m = some s' → s.current_term ≤ s'.current_term) ∧
    (∀ e ms, candidateStep s e ms = some s' → s.current_term ≤ s'.current_term) ∧
    (∀ e m1 m2, leaderStep s e m1 m2 = some s' → s.current_term ≤ s'.current_term) ∧
    (∀ d, handle_rpc s d = some s' → s.current_term ≤ s'.current_term) ∧
    (∀ d, handle_request_vote s d = some s' → s.current_term ≤ s'.current_term) ∧
    (∀ d, handle_request_vote_response s d = some s' → s.current_term ≤ s'.current_term) ∧
    (∀ d, handle_append_entries s d = some s' → s.current_term ≤ s'.current_term) ∧
    (∀ d, handle_append_entries_response s d = some s' → s.current_term ≤ s'.current_term) ∧
    (∀ d, handle_client_request s d = some s' → s.current_term ≤ s'.current_term) ∧
    (handle_heartbeat s = some s' → s.current_term ≤ s'.current_term) :=
  ⟨fun _ _ h => followerStep_term_mono _ _ _ _ h,
   fun _ _ h => candidateStep_term_mono _ _ _ _ h,
   fun _ _ _ h => leaderStep_term_mono _ _ _ _ _ h,
   fun _ h => hrpc_term_mono _ _ _ h,
   fun _ h => hrv_term_mono _ _ _ h,
   fun _ h => hrvr_term_mono _ _ _ h,
   fun _ h => hae_term_mono _ _ _ h,
   fun _ h => haer_term_mono _ _ _ h,
   fun _ h => hcr_term_mono _ _ _ h,
   fun h => hhb_term_mono _ _ h⟩

/-- Claim C5 witness: the follower-step conjunct applied to a concrete
leader-state server, for which the step is the identity. -/
theorem raft_C5_witness : leaderServer.current_term ≤ leaderServer.current_term :=
  (raft_C5 leaderServer leaderServer).1 true [] (by decide)

/-- Claim C6: commit_index is non-decreasing across the three operations
that can modify it: handle_client_request, handle_append_entries and
handle_append_entries_response. -/
theorem raft_C6 (s s' : Server) (d : List Nat) :
    (handle_client_request s d = some s' → s.commit_index ≤ s'.commit_index) ∧
    (handle_append_entries s d = some s' → s.commit_index ≤ s'.commit_index) ∧
    (handle_append_entries_response s d = some s' → s.commit_index ≤ s'.commit_index) :=
  ⟨hcr_commit_mono _ _ _, hae_commit_mono _ _ _, haer_commit_mono _ _ _⟩

/-- Claim C6 witness: the client-request conjunct applied to a concrete
non-leader server, for which the handler is the identity. -/
theorem raft_C6_witness : baseServer.commit_index ≤ baseServer.commit_index :=
  (raft_C6 baseServer baseServer []).1 (by decide)

/-- Claim C7, counterexample: before the follower step the concrete server
satisfies len(next_index) = len(peers) = 2, but the follower step resizes
both index arrays to peers.len()+1 = 3, so the claimed equality with
len(peers) is not preserved by the Follower step. -/
theorem raft_C7_cex :
    baseServer.next_index.length = baseServer.peers.length ∧
    (followerStep baseServer true []).map (fun t => (t.next_index.length, t.peers.length))
      = some (3, 2) := by decide

/-- Claim C7 (amended): Server::new establishes
len(next_index) = len(match_index) = len(peers); the equality
len(next_index) = len(match_index) is preserved by every role step; but the
Follower step resets both arrays to length peers.len()+1, so after any
follower step both lengths equal len(peers)+1 rather than len(peers). -/
theorem raft_C7 :
    (∀ (id : Nat) (nodes : List Nat) (dl : Option Nat) (ki : List Nat),
        (Server.new id nodes dl ki).next_index.length = (Server.new id nodes dl ki).peers.length ∧
        (Server.new id nodes dl ki).match_index.length = (Server.new id nodes dl ki).peers.length) ∧
    (∀ (s s' : Server) (e : Bool) (m : List Nat), s.state = RaftState.Follower →
        followerStep s e m = some s' →
        s'.next_index.length = s'.peers.length + 1 ∧
        s'.match_index.length = s'.peers.length + 1) ∧
    (∀ (s s' : Server) (e : Bool) (m : List Nat), s.next_index.length = s.match_index.length →
        followerStep s e m = some s' → s'.next_index.length = s'.match_index.length) ∧
    (∀ (s s' : Server) (e : Bool) (ms : List (List Nat)),
        s.next_index.length = s.match_index.length →
        candidateStep s e ms = some s' → s'.next_index.length = s'.match_index.length) ∧
    (∀ (s s' : Server) (e : Bool) (m1 m2 : List Nat),
        s.next_index.length = s.match_index.length →
        leaderStep s e m1 m2 = some s' → s'.next_index.length = s'.match_index.length) := by
  refine ⟨?_, ?_, ?_, ?_, ?_⟩
  · intro id nodes dl ki
    constructor <;> simp [Server.new, List.length_replicate]
  · intro s s' e m hF h
    obtain ⟨p1, n1, m1⟩ := followerStep_arrays _ _ _ _ hF h
    rw [p1]
    exact ⟨n1, m1⟩
  · intro s s' e m hlen h
    exact followerStep_len_eq _ _ _ _ hlen h
  · intro s s' e ms hlen h
    exact candidateStep_len_eq _ _ _ _ hlen h
  · intro s s' e m1 m2 hlen h
    exact leaderStep_len_eq _ _ _ _ _ hlen h

/-- Claim C7 witness: the follower-step conjunct applied to the concrete
two-peer follower, whose arrays end up with length 3 = len(peers)+1. -/
theorem raft_C7_witness :
    ({ baseServer with
        next_index := [0, 0, 0],
        match_index := [0, 0, 0],
        state := RaftState.Candidate } : Server).next_index.length
      = ({ baseServer with
            next_index := [0, 0, 0],
            match_index := [0, 0, 0],
            state := RaftState.Candidate } : Server).peers.length + 1 :=
  (raft_C7.2.1 baseServer
    { baseServer with
        next_index := [0, 0, 0],
        match_index := [0, 0, 0],
        state := RaftState.Candidate } true [] rfl (by decide)).1

/-- Claim C8: a failed AppendEntriesResponse (success field not 1) from a
sender with 1-based id s, with a non-higher term, decrements exactly the
zero-based slot s-1 of next_index by one; match_index, commit_index and all
other fields are unchanged (the result state differs from the input only in
next_index), and every other next_index slot keeps its value. -/
theorem raft_C8 (s : Server) (data : List Nat) (sender term succ v : Nat)
    (hL : s.state = RaftState.Leader)
    (h0 : readU32 data 0 = some sender)
    (h4 : readU32 data 4 = some term)
    (h12 : readU32 data 12 = some succ)
    (hterm : term ≤ s.current_term) (hfail : succ ≠ 1) (hs : 1 ≤ sender)
    (hv : s.next_index.get? (sender - 1) = some v) (hvpos : 0 < v) :
    handle_append_entries_response s data
      = some { s with next_index := s.next_index.set (sender - 1) (v - 1) } ∧
    (s.next_index.set (sender - 1) (v - 1)).get? (sender - 1) = some (v - 1) ∧
    (∀ j, j ≠ sender - 1 →
      (s.next_index.set (sender - 1) (v - 1)).get? j = s.next_index.get? j) := by
  refine ⟨haer_fail_eq s data sender term succ v hL h0 h4 h12 hterm hfail hs hv hvpos, ?_, ?_⟩
  · have hlt : sender - 1 < s.next_index.length := by
      by_contra hge
      rw [List.get?_eq_none.mpr (by omega)] at hv
      exact Option.noConfusion hv
    rw [List.get?_set_eq_of_lt _ hlt]
  · intro j hj
    exact List.get?_set_ne _ _ (Ne.symm hj)

/-- Claim C8 witness: the concrete one-peer leader with next_index = [5]
processing a failed response from sender 1 ends with next_index = [4]. -/
theorem raft_C8_witness :
    handle_append_entries_response leaderServer
        [0, 0, 0, 1, 0, 0, 0, 10, 0, 0, 0, 3, 0, 0, 0, 0]
      = some { leaderServer with next_index := leaderServer.next_index.set (1 - 1) (5 - 1) } :=
  (raft_C8 leaderServer [0, 0, 0, 1, 0, 0, 0, 10, 0, 0, 0, 3, 0, 0, 0, 0] 1 10 0 5
    rfl (by decide) (by decide) (by decide) (by decide) (by decide) (by decide)
    (by decide) (by decide)).1

/-- Claim C9: handle_append_entries_response is total (returns a state) on
the failed path whenever 1 ≤ sender_id ≤ len(next_index) and the sender slot
of next_index is positive; outside that precondition it panics: sender_id 0
underflows the index arithmetic, a sender_id beyond the array length indexes
out of bounds, and a failed response with the sender slot already 0
underflows the u32 decrement.  The three closing conjuncts evaluate the
handler at one concrete input of each kind. -/
theorem raft_C9 :
    (∀ (s : Server) (data : List Nat) (sender term succ v : Nat),
        s.state = RaftState.Leader →
        readU32 data 0 = some sender → readU32 data 4 = some term →
        readU32 data 12 = some succ →
        term ≤ s.current_term → succ ≠ 1 → 1 ≤ sender →
        s.next_index.get? (sender - 1) = some v → 0 < v →
        (handle_append_entries_response s data).isSome) ∧
    handle_append_entries_response leaderServer
        [0, 0, 0, 0, 0, 0, 0, 1, 0, 0, 0, 3, 0, 0, 0, 0] = none ∧
    handle_append_entries_response leaderServer
        [0, 0, 0, 9, 0, 0, 0, 1, 0, 0, 0, 3, 0, 0, 0, 0] = none ∧
    handle_append_entries_response { leaderServer with next_index := [0] }
        [0, 0, 0, 1, 0, 0, 0, 1, 0, 0, 0, 3, 0, 0, 0, 0] = none := by
  refine ⟨?_, by decide, by decide, by decide⟩
  intro s data sender term succ v hL h0 h4 h12 hterm hfail hs hv hvpos
  rw [haer_fail_eq s data sender term succ v hL h0 h4 h12 hterm hfail hs hv hvpos]
  rfl

/-- Claim C9 witness: the totality conjunct applied to a concrete leader
with next_index = [7] and a concrete failed response from sender 1. -/
theorem raft_C9_witness :
    (handle_append_entries_response { leaderServer with next_index := [7] }
        [0, 0, 0, 1, 0, 0, 0, 2, 0, 0, 0, 3, 0, 0, 0, 0]).isSome :=
  raft_C9.1 { leaderServer with next_index := [7] }
    [0, 0, 0, 1, 0, 0, 0, 2, 0, 0, 0, 3, 0, 0, 0, 0] 1 2 0 7
    rfl (by decide) (by decide) (by decide) (by decide) (by decide) (by decide)
    (by decide) (by decide)

/-- Claim C10: handle_rpc reads the term and message_type fields at fixed
offsets 4..8 and 8..12 without a length check, so every message shorter than
12 bytes panics (none) instead of being dropped; and the dispatched handlers
read further fixed offsets with the same panic behavior, exhibited on a
concrete 12-byte ClientRequest reaching the read of bytes 12..16 in
handle_client_request and a concrete 16-byte AppendEntries reaching the read
of bytes 16..20 in handle_append_entries. -/
theorem raft_C10 :
    (∀ (s : Server) (data : List Nat), data.length < 12 → handle_rpc s data = none) ∧
    handle_rpc leaderServer [0, 0, 0, 1, 0, 0, 0, 20, 0, 0, 0, 6] = none ∧
    handle_rpc baseServer [0, 0, 0, 2, 0, 0, 0, 5, 0, 0, 0, 2, 0, 0, 0, 7] = none := by
  refine ⟨?_, by decide, by decide⟩
  intro s data hlen
  have h8 : readU32 data 8 = none := readU32_none data 8 (by omega)
  unfold handle_rpc
  rw [h8]
  rcases readU32 data 4 with _ | t <;> rfl

/-- Claim C10 witness: the short-message conjunct applied to a concrete
3-byte message. -/
theorem raft_C10_witness : handle_rpc baseServer [1, 2, 3] = none :=
  raft_C10.1 baseServer [1, 2, 3] (by decide)
